import Mathlib

/-!
Shallow embedding of `src/libzerostash/src/objects.rs` (crate `libzerostash`,
repository `rsdy/zerostash`).

Modelling conventions:
* Byte buffers are `List Nat`; every byte value is a `Nat`, with `< 256`
  hypotheses where a claim depends on byte range.
* The crypto provider's random source is modelled as a deterministic stream
  with an explicit position (`Rng`); `Random::fill` draws the next bytes and
  advances the position.
* Rust functions that can panic (slice-index / `copy_from_slice` length
  mismatches) return `Option`, with `none` standing for the panic.
* `io::Result` errors are modelled by `Except ErrKind` carrying the error
  kind the source constructs (`UnexpectedEof` / `InvalidInput`).
* `Storage::flush` returns `Option (Storage × Bool)`: `none` is a panic,
  `(s, true)` is `Ok(())` with post-state `s`, and `(s, false)` is a
  propagated backend error whose post-state `s` keeps the mutations the
  source performed before the failing backend call.
* The backend `Arc<dyn Backend>` is modelled by an opaque handle number plus
  the list `stored` of objects successfully handed to `write_object`.
* `BLOCK_SIZE` and `size_of::<Tag>()` are constants of the crate defined
  outside this file's source; they are passed as explicit parameters
  (`BS`, `TAG`) wherever the source mentions them.
* Machine-integer casts (`as u32`, `as u64`, `as i64`) are explicit
  `% 2^w` / two's-complement wraps on `Nat`/`Int`.
-/

namespace Zerostash

/-- Rust `u32` modulus, for the `as u32` casts building a `ChunkPointer`. -/
def U32_MOD : Nat := 4294967296

/-- Rust `u64` modulus. -/
def U64_MOD : Nat := 18446744073709551616

/-- The magnitude of `i64::MIN`. -/
def I64_HALF : Int := 9223372036854775808

/-- Two's-complement wrap of an integer into the `i64` range. -/
def wrap64 (x : Int) : Int := (x + I64_HALF) % (2 * I64_HALF) - I64_HALF

/-- Rust `usize → u64` cast (identity below `2^64`). -/
def natToU64 (n : Nat) : Nat := n % U64_MOD

/-- Rust `usize → i64` reinterpretation cast. -/
def natToI64 (n : Nat) : Int := wrap64 n

/-- Wrapping `i64` addition (release-mode Rust semantics of `+`). -/
def i64Add (a b : Int) : Int := wrap64 (a + b)

/-- Modelled from the spec: the width of a `CryptoDigest` (the crypto module
is outside `src/`; the spec fixes the identifier width at the digest size,
e.g. 32 bytes). -/
def DIGEST_WIDTH : Nat := 32

/-- Deterministic model of the crypto provider's random source: a byte
stream and a read position.  `Random::fill` reads the next bytes. -/
structure Rng where
  stream : Nat → Nat
  pos : Nat

/-- Rust `Random::fill` on a buffer of length `n`: returns the bytes written and
the advanced source. -/
def Rng.fill (r : Rng) (n : Nat) : List Nat × Rng :=
  ((List.range n).map fun i => r.stream (r.pos + i), ⟨r.stream, r.pos + n⟩)

/-- Rust `ObjectId(CryptoDigest)` — a fixed-width byte identifier. -/
structure ObjectId where
  bytes : List Nat
deriving DecidableEq

/-- Rust `ObjectId::default()`: an all-zero digest. -/
def ObjectId.default : ObjectId := ⟨List.replicate DIGEST_WIDTH 0⟩

/-- Rust `ObjectId::reset`: overwrite with fresh random bytes (the previous value
is discarded). -/
def ObjectId.reset (_id : ObjectId) (r : Rng) : ObjectId × Rng :=
  (⟨(r.fill DIGEST_WIDTH).1⟩, (r.fill DIGEST_WIDTH).2)

/-- Rust `ObjectId::new`: default then `reset`. -/
def ObjectId.new (r : Rng) : ObjectId × Rng :=
  ObjectId.default.reset r

/-- Rust `ObjectId::from_bytes`: `copy_from_slice` panics unless the slice length
equals the digest width; `none` models that panic. -/
def ObjectId.from_bytes (bs : List Nat) : Option ObjectId :=
  if bs.length = DIGEST_WIDTH then some ⟨bs⟩ else none

/-- One lowercase hex digit, as produced by the `{:02x}` format. -/
def hexDigit (n : Nat) : Char :=
  if n < 10 then Char.ofNat (48 + n) else Char.ofNat (87 + n)

/-- The two lowercase hex digits `{:02x}` prints for one byte. -/
def hexBytePair (b : Nat) : List Char :=
  [hexDigit (b / 16), hexDigit (b % 16)]

/-- Rust `ToString for ObjectId`: `format!("{:02x}", bytes.iter().format(""))` —
the bytes' two-digit lowercase hex renderings concatenated with no
separator. -/
def ObjectId.to_string (id : ObjectId) : String :=
  String.mk (List.flatten (id.bytes.map hexBytePair))

/-- Spec-side decoder for the claim about the string form: value of one
lowercase hex character. -/
def hexCharVal (c : Char) : Option Nat :=
  if 48 ≤ c.toNat ∧ c.toNat ≤ 57 then some (c.toNat - 48)
  else if 97 ≤ c.toNat ∧ c.toNat ≤ 102 then some (c.toNat - 87)
  else none

/-- Spec-side decoder: parse a list of hex characters two at a time back
into bytes; fails on a non-hex character or an odd length. -/
def hexDecodeChars : List Char → Option (List Nat)
  | [] => some []
  | [_] => none
  | hi :: lo :: rest =>
    match hexCharVal hi, hexCharVal lo, hexDecodeChars rest with
    | some h, some l, some bs => some ((16 * h + l) :: bs)
    | _, _, _ => none

/-- Error kinds the source constructs via `io::Error::from`. -/
inductive ErrKind where
  | unexpectedEof
  | invalidInput
deriving DecidableEq

/-- Rust `Object<T>`: identifier, byte buffer, effective capacity, cursor.
The buffer-kind parameter `T` is erased: both `BlockBuffer` and
`ReadBuffer` present the buffer as a byte slice, which `List Nat` models. -/
structure Object where
  id : ObjectId
  buffer : List Nat
  capacity : Nat
  cursor : Nat
deriving DecidableEq

/-- Rust `Object::new(buffer)`: cursor 0, capacity = `BLOCK_SIZE` (the nominal
constant, not the buffer's length). -/
def Object.new (BS : Nat) (buffer : List Nat) : Object :=
  { id := ObjectId.default, cursor := 0, capacity := BS, buffer := buffer }

/-- Rust `Object::with_id(id, buffer)`: capacity = the buffer's actual length. -/
def Object.with_id (id : ObjectId) (buffer : List Nat) : Object :=
  { id := id, cursor := 0, capacity := buffer.length, buffer := buffer }

/-- Rust `WriteObject::default()`: a zeroed `BLOCK_SIZE` buffer, capacity = the
buffer's length. -/
def Object.default (BS : Nat) : Object :=
  let buffer := List.replicate BS 0
  { id := ObjectId.default, cursor := 0, capacity := buffer.length, buffer := buffer }

/-- Rust `Object::reset_cursor`. -/
def Object.reset_cursor (o : Object) : Object := { o with cursor := 0 }

/-- Rust `Object::position`. -/
def Object.position (o : Object) : Nat := o.cursor

/-- Rust `Object::reserve_tag`: `capacity = BLOCK_SIZE - size_of::<Tag>()` —
an absolute assignment from the crate constants. -/
def Object.reserve_tag (BS TAG : Nat) (o : Object) : Object :=
  { o with capacity := BS - TAG }

/-- Rust `Write::write` for `Object`: copy into `buffer[cursor..cursor+len]` and
advance the cursor.  The slice index panics (`none`) when the range leaves
the buffer; there is no capacity check here. -/
def Object.write (o : Object) (buf : List Nat) : Option Object :=
  if o.cursor + buf.length ≤ o.buffer.length then
    some { o with
            buffer := o.buffer.take o.cursor ++ buf ++ o.buffer.drop (o.cursor + buf.length),
            cursor := o.cursor + buf.length }
  else none

/-- Rust `Read::read` for `Object` with a destination of length `n`: checked
against the raw buffer length (`self.buffer.as_ref().len()`), not against
`capacity`; on success copies `buffer[cursor..cursor+n]` and sets the
cursor to the end of the range. -/
def Object.read (o : Object) (n : Nat) : Except ErrKind (Object × List Nat) :=
  let endPos := n + o.cursor
  if endPos > o.buffer.length then .error .unexpectedEof
  else .ok ({ o with cursor := endPos }, (o.buffer.drop o.cursor).take n)

/-- Rust `SeekFrom` positions; `Start` carries a `u64` value, the others `i64`
values. -/
inductive SeekFrom where
  | Start (s : Nat)
  | End (e : Int)
  | Current (c : Int)

/-- Rust `Seek::seek` for `Object`: bounds-checked against `capacity`; in-range
requests move the cursor, out-of-range requests fail with `InvalidInput`
without touching the object (each error path in the source returns before
any mutation). -/
def Object.seek (o : Object) (p : SeekFrom) : Except ErrKind (Object × Nat) :=
  let umax : Nat := natToU64 o.capacity
  let imax : Int := natToI64 o.capacity
  match p with
  | .Start s =>
    if s > umax then .error .invalidInput
    else .ok ({ o with cursor := s }, s)
  | .End e =>
    if e < 0 then .error .invalidInput
    else if e > imax then .error .invalidInput
    else .ok ({ o with cursor := o.capacity - e.toNat }, o.capacity - e.toNat)
  | .Current c =>
    let newPos := i64Add (natToI64 o.cursor) c
    if newPos < 0 then .error .invalidInput
    else if newPos > imax then .error .invalidInput
    else .ok ({ o with cursor := newPos.toNat }, newPos.toNat)

/-- Rust `Object::finalize`: fill `buffer[cursor..]` (the raw buffer tail, past
capacity too) with random bytes.  The slice index panics (`none`) when the
cursor exceeds the buffer length. -/
def Object.finalize (o : Object) (r : Rng) : Option (Object × Rng) :=
  if o.cursor ≤ o.buffer.length then
    let f := r.fill (o.buffer.length - o.cursor)
    some ({ o with buffer := o.buffer.take o.cursor ++ f.1 }, f.2)
  else none

/-- Rust `ChunkPointer`: offset and size are `u32` fields. -/
structure ChunkPointer where
  offs : Nat
  size : Nat
  file : ObjectId
  hash : List Nat
  tag : List Nat
deriving DecidableEq

/-- Rust `Storage<C>`: the in-progress write object, the recorded capacity
ceiling, the crypto provider's random source, an opaque backend handle and
the log of objects successfully written through it. -/
structure Storage where
  backend : Nat
  object : Object
  capacity : Nat
  rng : Rng
  stored : List Object

/-- Rust `Storage::new(backend, crypto)`: a default write object (note: no
`reserve_tag` call appears in the source), its identifier reset from the
random source, and its capacity recorded. -/
def Storage.new (BS : Nat) (backend : Nat) (r : Rng) : Storage :=
  let obj0 := Object.default BS
  let f := obj0.id.reset r
  let object := { obj0 with id := f.1 }
  { backend := backend, object := object, capacity := object.capacity,
    rng := f.2, stored := [] }

/-- Rust `Clone for Storage`: clone the object, reset its identifier from the
random source, share the backend handle, clone the crypto provider. -/
def Storage.clone (s : Storage) : Storage :=
  let f := s.object.id.reset s.rng
  { backend := s.backend,
    object := { s.object with id := f.1 },
    capacity := s.capacity,
    rng := f.2,
    stored := s.stored }

/-- Rust `Storage::flush`: finalize the object, hand it to the backend, and only
on success reset the identifier and the cursor.  `backendOk` is the
backend's answer; `(s, false)` propagates the backend error with the
post-state `s` (the object already finalized, nothing else changed). -/
def Storage.flush (backendOk : Bool) (s : Storage) : Option (Storage × Bool) :=
  match s.object.finalize s.rng with
  | none => none
  | some (fobj, r1) =>
    if backendOk then
      let f := fobj.id.reset r1
      some ({ s with
                object := { fobj with id := f.1, cursor := 0 },
                rng := f.2,
                stored := s.stored ++ [fobj] }, true)
    else
      some ({ s with object := fobj, rng := r1 }, false)

/-- Rust `Storage::store_chunk`: compress, flush first when the chunk would not
fit, encrypt against the (possibly rotated) object, append, and return a
pointer recording the pre-write offset, the compressed length and the
owning object's identifier.  `compress` and `encrypt` are the external
collaborators (`compress::block`, `CryptoProvider::encrypt_chunk`, the
latter returning ciphertext of the buffer it encrypted in place, plus the
tag).  Outer `none` is a panic, inner `none` a propagated error. -/
def Storage.store_chunk (backendOk : Bool)
    (compress : List Nat → List Nat)
    (encrypt : Object → List Nat → List Nat → List Nat × List Nat)
    (hash data : List Nat) (s : Storage) :
    Option (Storage × Option ChunkPointer) :=
  let compressed := compress data
  let size := compressed.length
  let offs := s.object.position
  let flushed : Option (Storage × Bool) :=
    if offs + size > s.capacity then Storage.flush backendOk s
    else some (s, true)
  match flushed with
  | none => none
  | some (s1, false) => some (s1, none)
  | some (s1, true) =>
    let offs1 := s1.object.position
    let ct := encrypt s1.object hash compressed
    match s1.object.write ct.1 with
    | none => none
    | some obj2 =>
      some ({ s1 with object := obj2 },
        some { offs := offs1 % U32_MOD, size := size % U32_MOD,
               file := obj2.id, hash := hash, tag := ct.2 })

/-- A zero random stream, for concrete instances. -/
def rngZero : Rng := ⟨fun _ => 0, 0⟩

/-- A constant-one random stream, for concrete instances. -/
def rngOne : Rng := ⟨fun _ => 1, 0⟩

/-! ## Basic lemmas about the embedding -/

theorem Rng.fill_fst (r : Rng) (n : Nat) :
    (r.fill n).1 = (List.range n).map fun i => r.stream (r.pos + i) := rfl

theorem Rng.fill_snd (r : Rng) (n : Nat) : (r.fill n).2 = ⟨r.stream, r.pos + n⟩ := rfl

theorem Rng.fill_fst_length (r : Rng) (n : Nat) : ((r.fill n).1).length = n := by
  simp [Rng.fill]

theorem Object.default_capacity (BS : Nat) : (Object.default BS).capacity = BS := by
  simp [Object.default]

theorem Object.write_eq_some (o : Object) (buf : List Nat)
    (h : o.cursor + buf.length ≤ o.buffer.length) :
    o.write buf = some { o with
      buffer := o.buffer.take o.cursor ++ buf ++ o.buffer.drop (o.cursor + buf.length),
      cursor := o.cursor + buf.length } := by
  simp [Object.write, h]

/-! ## C2 -/

/-- C2 counterexample: with block size 16 and tag width 4 (the spec's own
concrete scenario), the object built by `Storage::new` has capacity 16, not
`16 - 4`: no tag region is reserved by `Storage::new`. -/
theorem storage_new_no_reserved_tag_cex :
    ¬ ((Storage.new 16 0 rngZero).object.capacity = 16 - 4) := by decide

/-- C2 (amended): `Storage::new(backend, crypto)` produces a `Storage` whose
in-progress object has the full default capacity — the block size, with no
tag region reserved — a randomized identifier drawn from the random source,
cursor 0, a zeroed buffer, and that capacity recorded in the `Storage`'s
`capacity` field. -/
theorem storage_new_spec (BS b : Nat) (r : Rng) :
    (Storage.new BS b r).object.capacity = BS ∧
    (Storage.new BS b r).capacity = BS ∧
    (Storage.new BS b r).object.cursor = 0 ∧
    (Storage.new BS b r).object.buffer = List.replicate BS 0 ∧
    (Storage.new BS b r).object.id.bytes = (r.fill DIGEST_WIDTH).1 ∧
    (Storage.new BS b r).backend = b := by
  simp [Storage.new, Object.default, ObjectId.reset]

/-! ## C6 -/

/-- C6 counterexample: an object built by `with_id` over an 8-byte buffer
has capacity 8; `reserve_tag` with block size 16 and tag width 4 sets its
capacity to 12, which is not a shrink of the previous capacity by the tag
width. -/
theorem reserve_tag_not_relative_cex :
    ¬ (((Object.with_id ObjectId.default (List.replicate 8 0)).reserve_tag 16 4).capacity
        = (Object.with_id ObjectId.default (List.replicate 8 0)).capacity - 4) := by
  decide

/-- C6 (amended): `reserve_tag` sets the capacity to the absolute value
`BLOCK_SIZE - size_of::<Tag>()`, regardless of the capacity the object had
before the call, leaving the other fields untouched; it shrinks the
capacity by exactly the tag width only when the previous capacity was the
block size. -/
theorem reserve_tag_sets_absolute (BS TAG : Nat) (o : Object) :
    (o.reserve_tag BS TAG).capacity = BS - TAG ∧
    (o.reserve_tag BS TAG).id = o.id ∧
    (o.reserve_tag BS TAG).buffer = o.buffer ∧
    (o.reserve_tag BS TAG).cursor = o.cursor := by
  simp [Object.reserve_tag]

/-! ## C9 -/

/-- C9: cloning a `Storage` shares the backend handle, clones the crypto
provider (same random stream), gives the duplicate's in-progress object a
brand-new identifier freshly drawn from the random source, and copies the
original object's buffer, cursor and capacity byte for byte (the recorded
capacity too). -/
theorem storage_clone_spec (s : Storage) :
    s.clone.backend = s.backend ∧
    s.clone.rng.stream = s.rng.stream ∧
    s.clone.object.id.bytes = (s.rng.fill DIGEST_WIDTH).1 ∧
    s.clone.object.buffer = s.object.buffer ∧
    s.clone.object.cursor = s.object.cursor ∧
    s.clone.object.capacity = s.object.capacity ∧
    s.clone.capacity = s.capacity := by
  simp [Storage.clone, ObjectId.reset, Rng.fill]

/-! ## C10 -/

/-- C10: `ObjectId::from_bytes` panics (modelled by `none`, via
`copy_from_slice`'s length assertion) exactly when the input length differs
from the digest width; the non-panicking path exists only for exact-width
input and reproduces the bytes without truncation. -/
theorem from_bytes_exact_width (bs : List Nat) :
    (bs.length = DIGEST_WIDTH → ObjectId.from_bytes bs = some ⟨bs⟩) ∧
    (bs.length ≠ DIGEST_WIDTH → ObjectId.from_bytes bs = none) := by
  constructor <;> intro h <;> simp [ObjectId.from_bytes, h]

/-- C10 witness: a two-byte slice is not digest-width, and `from_bytes`
panics on it. -/
theorem from_bytes_exact_width_witness :
    ([171, 1] : List Nat).length ≠ DIGEST_WIDTH ∧
    ObjectId.from_bytes [171, 1] = none :=
  ⟨by decide, (from_bytes_exact_width [171, 1]).2 (by decide)⟩

/-! ## C8 -/

theorem hexCharVal_hexDigit : ∀ n < 16, hexCharVal (hexDigit n) = some n := by decide

theorem hexDecode_flatten (bs : List Nat) (h : ∀ b ∈ bs, b < 256) :
    hexDecodeChars (List.flatten (bs.map hexBytePair)) = some bs := by
  induction bs with
  | nil => rfl
  | cons b rest ih =>
    have hb : b < 256 := h b (by simp)
    have h1 := hexCharVal_hexDigit (b / 16) (by omega)
    have h2 := hexCharVal_hexDigit (b % 16) (by omega)
    have hr := ih (fun x hx => h x (by simp [hx]))
    simp [hexBytePair, hexDecodeChars, h1, h2, hr]
    omega

theorem hexEncode_length (bs : List Nat) :
    (List.flatten (bs.map hexBytePair)).length = 2 * bs.length := by
  induction bs with
  | nil => rfl
  | cons b rest ih =>
    simp [hexBytePair, ih]
    omega

/-- C8: `from_bytes` on an exact digest-width slice reproduces the same
bytes via `as_ref` (the `bytes` field), and `to_string` yields a
separator-free lowercase hex encoding: exactly two hex characters per byte,
decodable back to the same bytes. -/
theorem objectid_hex_roundtrip (bs : List Nat)
    (hlen : bs.length = DIGEST_WIDTH) (hbyte : ∀ b ∈ bs, b < 256) :
    ObjectId.from_bytes bs = some ⟨bs⟩ ∧
    (ObjectId.mk bs).bytes = bs ∧
    hexDecodeChars ((ObjectId.mk bs).to_string).data = some bs ∧
    ((ObjectId.mk bs).to_string).length = 2 * bs.length := by
  refine ⟨by simp [ObjectId.from_bytes, hlen], rfl, ?_, ?_⟩
  · simpa [ObjectId.to_string] using hexDecode_flatten bs hbyte
  · simpa [ObjectId.to_string, String.length] using hexEncode_length bs

/-- A concrete digest-width byte list ending in the spec's example bytes
`0xAB 0x01`. -/
def hexWitnessBytes : List Nat := List.replicate 30 0 ++ [171, 1]

/-- C8 witness: the concrete digest-width byte list round-trips through
`from_bytes`/`to_string`, and the two example bytes `0xAB 0x01` render as
`"ab01"`. -/
theorem objectid_hex_roundtrip_witness :
    hexWitnessBytes.length = DIGEST_WIDTH ∧
    (hexDecodeChars ((ObjectId.mk hexWitnessBytes).to_string).data = some hexWitnessBytes ∧
      ((ObjectId.mk hexWitnessBytes).to_string).length = 2 * hexWitnessBytes.length) ∧
    ObjectId.to_string ⟨[171, 1]⟩ = "ab01" :=
  ⟨by decide,
   ⟨(objectid_hex_roundtrip hexWitnessBytes (by decide) (by decide)).2.2.1,
    (objectid_hex_roundtrip hexWitnessBytes (by decide) (by decide)).2.2.2⟩,
   by decide⟩

/-! ## C3 -/

/-- A reachable object with a reserved tag region: 16-byte buffer, capacity
12 after `reserve_tag`, cursor 10 after writing ten bytes. -/
def readCexObj : Object :=
  (((Object.default 16).reserve_tag 16 4).write (List.replicate 10 1)).getD (Object.default 0)

/-- C3 counterexample: with `cursor + n = 14` beyond the capacity 12 but
within the 16-byte raw buffer, the read succeeds instead of failing with
`UnexpectedEof`: the bound the source checks is the raw buffer length, not
the capacity. -/
theorem read_beyond_capacity_cex :
    readCexObj.cursor + 4 > readCexObj.capacity ∧
    readCexObj.read 4 = .ok ({ readCexObj with cursor := 14 }, [0, 0, 0, 0]) :=
  ⟨by decide, rfl⟩

/-- C3 (amended): a read of `n` bytes fails with an `UnexpectedEof`
condition (no panic) exactly when `cursor + n` exceeds the raw buffer
length — not the capacity; on success it returns the bytes
`buffer[cursor..cursor+n)` and advances the cursor by exactly `n`. -/
theorem read_contract (o : Object) (n : Nat) :
    (o.cursor + n > o.buffer.length → o.read n = .error .unexpectedEof) ∧
    (o.cursor + n ≤ o.buffer.length →
      o.read n = .ok ({ o with cursor := o.cursor + n },
        (o.buffer.drop o.cursor).take n)) := by
  constructor
  · intro h
    have h' : n + o.cursor > o.buffer.length := by omega
    simp [Object.read, h']
  · intro h
    have h' : ¬ (n + o.cursor > o.buffer.length) := by omega
    simp [Object.read, h', Nat.add_comm n o.cursor]
    omega

/-- C3 witness: reading 2 bytes at cursor 0 of a fresh 4-byte object
succeeds, yields the first two buffer bytes and advances the cursor by 2. -/
theorem read_contract_witness :
    (Object.default 4).cursor + 2 ≤ (Object.default 4).buffer.length ∧
    (Object.default 4).read 2 =
      .ok ({ Object.default 4 with cursor := (Object.default 4).cursor + 2 },
        (((Object.default 4).buffer).drop (Object.default 4).cursor).take 2) :=
  ⟨by decide, (read_contract (Object.default 4) 2).2 (by decide)⟩

/-! ## Flush: closed-form equations -/

theorem flush_false_eq (s : Storage) (h : s.object.cursor ≤ s.object.buffer.length) :
    Storage.flush false s = some
      ({ s with
          object := { s.object with
            buffer := s.object.buffer.take s.object.cursor ++
              (s.rng.fill (s.object.buffer.length - s.object.cursor)).1 },
          rng := (s.rng.fill (s.object.buffer.length - s.object.cursor)).2 }, false) := by
  simp [Storage.flush, Object.finalize, h]

theorem flush_true_eq (s : Storage) (h : s.object.cursor ≤ s.object.buffer.length) :
    Storage.flush true s = some
      ({ s with
          object := {
            id := ⟨((s.rng.fill (s.object.buffer.length - s.object.cursor)).2.fill
              DIGEST_WIDTH).1⟩,
            buffer := s.object.buffer.take s.object.cursor ++
              (s.rng.fill (s.object.buffer.length - s.object.cursor)).1,
            capacity := s.object.capacity,
            cursor := 0 },
          rng := ((s.rng.fill (s.object.buffer.length - s.object.cursor)).2.fill
            DIGEST_WIDTH).2,
          stored := s.stored ++ [{ s.object with
            buffer := s.object.buffer.take s.object.cursor ++
              (s.rng.fill (s.object.buffer.length - s.object.cursor)).1 }] }, true) := by
  simp [Storage.flush, Object.finalize, ObjectId.reset, h]

/-! ## C4 -/

/-- C4 counterexample: on a fresh 4-byte-block storage over the
constant-one random stream, a `flush` whose backend write fails leaves the
in-progress object's buffer different from the buffer before the call —
`finalize` has already overwritten the tail with random padding. -/
theorem flush_fail_changes_buffer_cex :
    (Storage.flush false (Storage.new 4 0 rngOne)).map (fun p => p.1.object.buffer)
      ≠ some ((Storage.new 4 0 rngOne).object.buffer) := by decide

/-- C4 (amended): when the backend write inside `flush` fails, the error is
propagated and the object is not reset — identifier, cursor, both
capacities, the backend handle and the write log keep their values, the
buffer keeps its length and its bytes below the cursor, so retrying `flush`
loses no chunk data; however the buffer tail from the cursor on has already
been overwritten with random padding by `finalize`. -/
theorem flush_fail_state (s : Storage) (h : s.object.cursor ≤ s.object.buffer.length) :
    ∃ s', Storage.flush false s = some (s', false) ∧
      s'.object.id = s.object.id ∧
      s'.object.cursor = s.object.cursor ∧
      s'.object.capacity = s.object.capacity ∧
      s'.capacity = s.capacity ∧
      s'.backend = s.backend ∧
      s'.stored = s.stored ∧
      s'.object.buffer.take s.object.cursor = s.object.buffer.take s.object.cursor ∧
      s'.object.buffer.length = s.object.buffer.length ∧
      s'.object.buffer.drop s.object.cursor =
        (s.rng.fill (s.object.buffer.length - s.object.cursor)).1 := by
  refine ⟨_, flush_false_eq s h, rfl, rfl, rfl, rfl, rfl, rfl, ?_, ?_, ?_⟩
  · have hl : (s.object.buffer.take s.object.cursor).length = s.object.cursor := by
      simp [h]
    rw [List.take_append_eq_append_take]
    simp [hl]
  · simp [Rng.fill_fst_length, h]
  · have hl : (s.object.buffer.take s.object.cursor).length = s.object.cursor := by
      simp [h]
    rw [List.drop_append_eq_append_drop]
    simp [hl]

/-- C4 witness: the fresh 4-byte-block storage satisfies the cursor bound,
and a failed flush keeps its identifier and cursor. -/
theorem flush_fail_state_witness :
    (Storage.new 4 0 rngOne).object.cursor ≤ (Storage.new 4 0 rngOne).object.buffer.length ∧
    (∃ s', Storage.flush false (Storage.new 4 0 rngOne) = some (s', false) ∧
      s'.object.id = (Storage.new 4 0 rngOne).object.id ∧
      s'.object.cursor = (Storage.new 4 0 rngOne).object.cursor) := by
  refine ⟨by decide, ?_⟩
  obtain ⟨s', h1, h2, h3, _⟩ := flush_fail_state (Storage.new 4 0 rngOne) (by decide)
  exact ⟨s', h1, h2, h3⟩

theorem flush_true_spec (s : Storage) (h : s.object.cursor ≤ s.object.buffer.length) :
    ∃ s' fl, Storage.flush true s = some (s', true) ∧
      s'.object.cursor = 0 ∧
      s'.object.id.bytes = (List.range DIGEST_WIDTH).map
        (fun i => s.rng.stream (s.rng.pos + (s.object.buffer.length - s.object.cursor) + i)) ∧
      s'.object.capacity = s.object.capacity ∧
      s'.object.buffer.length = s.object.buffer.length ∧
      s'.capacity = s.capacity ∧
      s'.backend = s.backend ∧
      s'.stored = s.stored ++ [fl] ∧
      fl.id = s.object.id := by
  refine ⟨_, _, flush_true_eq s h, rfl, ?_, rfl, ?_, rfl, rfl, rfl, rfl⟩
  · simp [Rng.fill]
  · simp [Rng.fill_fst_length]
    omega

/-! ## C5 -/

/-- C5: a successful `flush` rotates — the new in-progress object has
cursor 0 and an identifier freshly drawn from the random source (the next
`DIGEST_WIDTH` stream bytes after the padding draw), the flushed object
appended to the backend log keeps the old identifier, and neither the
object's capacity field nor the `Storage`'s recorded capacity changes. -/
theorem flush_rotation (s : Storage) (h : s.object.cursor ≤ s.object.buffer.length) :
    ∃ s', Storage.flush true s = some (s', true) ∧
      s'.object.cursor = 0 ∧
      s'.object.id.bytes = (List.range DIGEST_WIDTH).map
        (fun i => s.rng.stream (s.rng.pos + (s.object.buffer.length - s.object.cursor) + i)) ∧
      s'.object.capacity = s.object.capacity ∧
      s'.capacity = s.capacity ∧
      (∃ fl, s'.stored = s.stored ++ [fl] ∧ fl.id = s.object.id) := by
  refine ⟨_, flush_true_eq s h, rfl, ?_, rfl, rfl, ⟨_, rfl, rfl⟩⟩
  simp [Rng.fill]

/-- C5 witness: flushing a fresh 4-byte-block storage succeeds, resets the
cursor to 0 and keeps the recorded capacity. -/
theorem flush_rotation_witness :
    (Storage.new 4 0 rngZero).object.cursor ≤ (Storage.new 4 0 rngZero).object.buffer.length ∧
    (∃ s', Storage.flush true (Storage.new 4 0 rngZero) = some (s', true) ∧
      s'.object.cursor = 0 ∧ s'.capacity = (Storage.new 4 0 rngZero).capacity) := by
  refine ⟨by decide, ?_⟩
  obtain ⟨s', h1, h2, _, _, h5, _⟩ := flush_rotation (Storage.new 4 0 rngZero) (by decide)
  exact ⟨s', h1, h2, h5⟩

/-! ## C1 -/

/-- C1: in `store_chunk` (with a cooperative backend), letting `offs` be
the object's cursor before the call and `size` the compressed length, a
flush happens before writing exactly when `offs + size > capacity` (the
write log grows by one and the chunk lands at offset 0 of the rotated
object); when `offs + size ≤ capacity` — the exact fit `offs + size =
capacity` included — no flush happens, the write log is unchanged, and the
pointer records the pre-write offset `offs` and the current object's
identifier.  In both cases the pointer records the compressed length and
the identifier of the object actually written into. -/
theorem store_chunk_flush_boundary
    (compress : List Nat → List Nat)
    (encrypt : Object → List Nat → List Nat → List Nat × List Nat)
    (hash data : List Nat) (s : Storage)
    (hencl : ∀ o h d, ((encrypt o h d).1).length = d.length)
    (hcur : s.object.cursor ≤ s.capacity)
    (hcap : s.capacity ≤ s.object.buffer.length)
    (hsize : (compress data).length ≤ s.capacity)
    (hcap32 : s.capacity < U32_MOD) :
    ∃ s' ptr,
      Storage.store_chunk true compress encrypt hash data s = some (s', some ptr) ∧
      ptr.size = (compress data).length ∧
      ptr.file = s'.object.id ∧
      (s.object.cursor + (compress data).length > s.capacity →
        s'.stored.length = s.stored.length + 1 ∧ ptr.offs = 0) ∧
      (s.object.cursor + (compress data).length ≤ s.capacity →
        s'.stored = s.stored ∧ ptr.offs = s.object.cursor ∧ ptr.file = s.object.id) := by
  have hcurb : s.object.cursor ≤ s.object.buffer.length := le_trans hcur hcap
  have h32 : s.capacity < 4294967296 := hcap32
  by_cases hgt : s.object.cursor + (compress data).length > s.capacity
  · obtain ⟨s1, fl, hflush, hc0, _, _, hbl, hcaps, _, hstored, _⟩ := flush_true_spec s hcurb
    have hwr : s1.object.cursor + ((encrypt s1.object hash (compress data)).1).length
        ≤ s1.object.buffer.length := by
      rw [hc0, hencl, hbl]
      omega
    have hwrite := Object.write_eq_some s1.object _ hwr
    set ct := encrypt s1.object hash (compress data) with hct
    set obj2 : Object := { s1.object with
        buffer := s1.object.buffer.take s1.object.cursor ++ ct.1 ++
          s1.object.buffer.drop (s1.object.cursor + ct.1.length),
        cursor := s1.object.cursor + ct.1.length } with hobj2
    refine ⟨{ s1 with object := obj2 },
      { offs := s1.object.cursor % U32_MOD, size := (compress data).length % U32_MOD,
        file := obj2.id, hash := hash, tag := ct.2 }, ?_, ?_, ?_, ?_, ?_⟩
    · simp only [Storage.store_chunk, Object.position]
      rw [if_pos hgt, hflush]
      simp only [hwrite]
    · show (compress data).length % 4294967296 = (compress data).length
      omega
    · rfl
    · intro _
      refine ⟨by simp [hstored], ?_⟩
      show s1.object.cursor % 4294967296 = 0
      omega
    · intro h'
      exact absurd h' (by omega)
  · have hle : s.object.cursor + (compress data).length ≤ s.capacity := by omega
    have hwr : s.object.cursor + ((encrypt s.object hash (compress data)).1).length
        ≤ s.object.buffer.length := by
      rw [hencl]
      omega
    have hwrite := Object.write_eq_some s.object _ hwr
    set ct := encrypt s.object hash (compress data) with hct
    set obj2 : Object := { s.object with
        buffer := s.object.buffer.take s.object.cursor ++ ct.1 ++
          s.object.buffer.drop (s.object.cursor + ct.1.length),
        cursor := s.object.cursor + ct.1.length } with hobj2
    refine ⟨{ s with object := obj2 },
      { offs := s.object.cursor % U32_MOD, size := (compress data).length % U32_MOD,
        file := obj2.id, hash := hash, tag := ct.2 }, ?_, ?_, ?_, ?_, ?_⟩
    · simp only [Storage.store_chunk, Object.position]
      rw [if_neg hgt]
      simp only [hwrite]
    · show (compress data).length % 4294967296 = (compress data).length
      omega
    · rfl
    · intro h'
      exact absurd h' (by omega)
    · intro _
      refine ⟨rfl, ?_, rfl⟩
      show s.object.cursor % 4294967296 = s.object.cursor
      omega

/-- C1 witness: an 8-byte-block fresh storage, identity compression and
identity encryption; a 3-byte chunk fits (`0 + 3 ≤ 8`), so it is stored
without a flush at offset 0 of the current object. -/
theorem store_chunk_flush_boundary_witness :
    (Storage.new 8 0 rngZero).object.cursor ≤ (Storage.new 8 0 rngZero).capacity ∧
    (∃ s' ptr,
      Storage.store_chunk true (fun d => d) (fun _ _ d => (d, [])) [7] [1, 2, 3]
        (Storage.new 8 0 rngZero) = some (s', some ptr) ∧
      ptr.size = 3 ∧ ptr.offs = (Storage.new 8 0 rngZero).object.cursor ∧
      s'.stored = (Storage.new 8 0 rngZero).stored) := by
  refine ⟨by decide, ?_⟩
  obtain ⟨s', ptr, h1, h2, _, _, h5⟩ :=
    store_chunk_flush_boundary (fun d => d) (fun _ _ d => (d, [])) [7] [1, 2, 3]
      (Storage.new 8 0 rngZero) (fun _ _ _ => rfl) (by decide) (by decide) (by decide)
      (by decide)
  obtain ⟨h6, h7, _⟩ := h5 (by decide)
  exact ⟨s', ptr, h1, h2, h7, h6⟩

/-! ## C7 -/

/-- The target position a `SeekFrom` request names, as the claim reads it:
the absolute position for `Start`, `capacity - e` for `End`, and
`cursor + c` for `Current`. -/
def seekTarget (o : Object) : SeekFrom → Int
  | .Start s => (s : Int)
  | .End e => (o.capacity : Int) - e
  | .Current c => (o.cursor : Int) + c

/-- The request's payload fits the machine integer type the source uses
(`u64` for `Start`, `i64` for the signed modes). -/
def seekRepresentable : SeekFrom → Prop
  | .Start s => s < 18446744073709551616
  | .End e => -9223372036854775808 ≤ e ∧ e < 9223372036854775808
  | .Current c => -9223372036854775808 ≤ c ∧ c < 9223372036854775808

/-- C7: for an object whose cursor is within `[0, capacity]`, a seek whose
target position lies outside `[0, capacity]` fails with an `InvalidInput`
condition and does not move the cursor (every error path in the source
returns before mutating, and none panics in wrapping semantics), while a
seek whose target lies inside `[0, capacity]` sets the cursor to exactly
the target — so the cursor never leaves `[0, capacity]`. -/
theorem seek_contract (o : Object) (p : SeekFrom)
    (hcur : o.cursor ≤ o.capacity) (hcap : o.capacity < 9223372036854775808)
    (hrep : seekRepresentable p) :
    ((seekTarget o p < 0 ∨ (o.capacity : Int) < seekTarget o p) →
      o.seek p = .error .invalidInput) ∧
    ((0 ≤ seekTarget o p ∧ seekTarget o p ≤ (o.capacity : Int)) →
      o.seek p = .ok ({ o with cursor := (seekTarget o p).toNat }, (seekTarget o p).toNat) ∧
      (seekTarget o p).toNat ≤ o.capacity) := by
  rcases p with s | e | c
  · -- SeekFrom::Start
    have hs : s < 18446744073709551616 := hrep
    constructor
    · intro hout
      have h1 : s > natToU64 o.capacity := by
        simp only [seekTarget] at hout
        simp only [natToU64, U64_MOD]
        omega
      simp [Object.seek, h1]
    · intro h0
      obtain ⟨h0l, h0r⟩ := h0
      have h1 : ¬ (s > natToU64 o.capacity) := by
        simp only [seekTarget] at h0r
        simp only [natToU64, U64_MOD]
        omega
      have h2 : ((s : Int)).toNat = s := by omega
      constructor
      · simp [Object.seek, h1, seekTarget, h2]
      · simp only [seekTarget] at h0r ⊢
        omega
  · -- SeekFrom::End
    obtain ⟨hel, her⟩ := (hrep : _ ∧ _)
    have himax : natToI64 o.capacity = (o.capacity : Int) := by
      simp only [natToI64, wrap64, I64_HALF]
      omega
    constructor
    · intro hout
      simp only [seekTarget] at hout
      by_cases he : e < 0
      · simp [Object.seek, he]
      · have h2 : e > natToI64 o.capacity := by
          rw [himax]
          omega
        simp [Object.seek, he, h2]
    · intro h0
      obtain ⟨h0l, h0r⟩ := h0
      simp only [seekTarget] at h0l h0r
      have he : ¬ (e < 0) := by omega
      have h2 : ¬ (e > natToI64 o.capacity) := by
        rw [himax]
        omega
      have h3 : o.capacity - e.toNat = ((o.capacity : Int) - e).toNat := by omega
      constructor
      · simp [Object.seek, he, h2, seekTarget, h3]
      · simp only [seekTarget]
        omega
  · -- SeekFrom::Current
    obtain ⟨hcl, hcr⟩ := (hrep : _ ∧ _)
    have hicur : natToI64 o.cursor = (o.cursor : Int) := by
      simp only [natToI64, wrap64, I64_HALF]
      omega
    have himax : natToI64 o.capacity = (o.capacity : Int) := by
      simp only [natToI64, wrap64, I64_HALF]
      omega
    constructor
    · intro hout
      simp only [seekTarget] at hout
      by_cases hneg : i64Add (natToI64 o.cursor) c < 0
      · simp [Object.seek, hneg]
      · have h2 : i64Add (natToI64 o.cursor) c > natToI64 o.capacity := by
          rw [hicur] at hneg ⊢
          rw [himax]
          simp only [i64Add, wrap64, I64_HALF] at hneg ⊢
          omega
        simp [Object.seek, hneg, h2]
    · intro h0
      obtain ⟨h0l, h0r⟩ := h0
      simp only [seekTarget] at h0l h0r
      have hW : i64Add (natToI64 o.cursor) c = (o.cursor : Int) + c := by
        rw [hicur]
        simp only [i64Add, wrap64, I64_HALF]
        omega
      have hneg : ¬ (i64Add (natToI64 o.cursor) c < 0) := by
        rw [hW]
        omega
      have h2 : ¬ (i64Add (natToI64 o.cursor) c > natToI64 o.capacity) := by
        rw [hW, himax]
        omega
      have hneg' : ¬ ((o.cursor : Int) + c < 0) := by omega
      have h2' : ¬ (natToI64 o.capacity < (o.cursor : Int) + c) := by
        rw [himax]
        omega
      constructor
      · simp [Object.seek, hW, hneg', h2', seekTarget]
      · simp only [seekTarget]
        omega

/-- C7 witness: seeking 2 forward from cursor 0 of a fresh 4-byte object
lands exactly at target 2, within `[0, capacity]`. -/
theorem seek_contract_witness :
    ((Object.default 4).cursor ≤ (Object.default 4).capacity ∧
      (0 ≤ seekTarget (Object.default 4) (SeekFrom.Current 2) ∧
        seekTarget (Object.default 4) (SeekFrom.Current 2) ≤ ((Object.default 4).capacity : Int))) ∧
    ((Object.default 4).seek (SeekFrom.Current 2) =
      .ok ({ Object.default 4 with
              cursor := (seekTarget (Object.default 4) (SeekFrom.Current 2)).toNat },
        (seekTarget (Object.default 4) (SeekFrom.Current 2)).toNat) ∧
      (seekTarget (Object.default 4) (SeekFrom.Current 2)).toNat ≤ (Object.default 4).capacity) :=
  ⟨⟨by decide, by decide, by decide⟩,
    (seek_contract (Object.default 4) (SeekFrom.Current 2) (by decide) (by decide)
      (⟨by decide, by decide⟩ : seekRepresentable (SeekFrom.Current 2))).2
      ⟨by decide, by decide⟩⟩

end Zerostash
